import Mathlib

/-
Verification of the geo-service query adaptation pipeline
(pinax-network/indexer-rs, crate geo-service).

The embedding models, from src/geo-service/src/service.rs and
src/geo-service/src/routes/status.rs:
  - serde_json values (numbers as Int, enough for every claim here);
  - the three regex rewrites of rewrite_request, implemented as
    explicit left-to-right scanners with the leftmost, greedy,
    non-rescanning semantics of Regex::replace_all (whitespace is
    modelled as the ASCII whitespace characters);
  - the attestability header check of process_request;
  - the status route: the version literal short-circuit, root field
    extraction over a parsed GraphQL document, the whitelist check,
    and the response post-processing (replace_subgraph_id, error
    passthrough, and the todo-panic on an empty GraphQL response,
    modelled as the value none).
The GraphQL parser and the HTTP transport are external crates; they
enter the model as oracle parameters (a parse function, a backend
outcome).
-/

namespace Geo

/-- JSON values as in serde_json; object fields keep insertion order and
have pairwise distinct keys (serde_json maps cannot hold duplicates). -/
inductive Json where
  | null
  | bool (b : Bool)
  | num (n : Int)
  | str (s : String)
  | arr (items : List Json)
  | obj (fields : List (String × Json))
deriving Repr

/-! ### Query text rewriter (service.rs, rewrite_request) -/

/-- ASCII whitespace, the fragment of the regex class used by every
query string in this development. -/
def isWs (c : Char) : Bool :=
  c = ' ' || c = '\t' || c = '\n' || c = '\r' ||
  c = Char.ofNat 11 || c = Char.ofNat 12

/-- Strip a literal prefix, returning the remainder on success. -/
def stripLit : List Char → List Char → Option (List Char)
  | [], s => some s
  | _ :: _, [] => none
  | p :: ps, c :: cs => if c = p then stripLit ps cs else none

/-- Match the block value alternation nullOrBraces at the head of the
input: the literal null, or an opening brace, a run of characters other
than a closing brace, and a closing brace (the regex matches only up to
the first closing brace). Returns the remainder after the match. -/
def matchBlockValue (s : List Char) : Option (List Char) :=
  match stripLit ("null".toList) s with
  | some r => some r
  | none =>
    match s with
    | '{' :: t =>
      match t.dropWhile (fun c => !(c = '}')) with
      | '}' :: r => some r
      | _ => none
    | _ => none

/-- Match, at the head of the input, one occurrence of the first rewrite
pattern: optional whitespace, an optional comma, optional whitespace, the
literal block, optional whitespace, a colon, optional whitespace, the
block value, optional whitespace and an optional trailing comma. Returns
the remainder after the matched span. -/
def matchBlockAt (s : List Char) : Option (List Char) :=
  let s1 := s.dropWhile isWs
  let s2 := match s1 with
    | ',' :: t => t.dropWhile isWs
    | _ => s1
  match stripLit ("block".toList) s2 with
  | none => none
  | some s3 =>
    match s3.dropWhile isWs with
    | ':' :: t =>
      match matchBlockValue (t.dropWhile isWs) with
      | none => none
      | some s6 =>
        match s6.dropWhile isWs with
        | ',' :: s7 => some s7
        | s7 => some s7
    | _ => none

/-- Match, at the head of the input, an opening parenthesis, optional
whitespace, a comma and optional whitespace (the second rewrite). -/
def matchParenCommaAt (s : List Char) : Option (List Char) :=
  match s with
  | '(' :: t =>
    match t.dropWhile isWs with
    | ',' :: t2 => some (t2.dropWhile isWs)
    | _ => none
  | _ => none

/-- Match, at the head of the input, an opening parenthesis, optional
whitespace and a closing parenthesis (the third rewrite). -/
def matchEmptyParensAt (s : List Char) : Option (List Char) :=
  match s with
  | '(' :: t =>
    match t.dropWhile isWs with
    | ')' :: r => some r
    | _ => none
  | _ => none

/-- Left-to-right scan of replace_all: at each position try the matcher;
on a match emit the replacement and continue after the matched span
(replacements are not rescanned), otherwise keep the character and move
on. Every matcher above consumes at least one character on success, so a
fuel equal to the input length never runs out. -/
def replaceAllAux (m : List Char → Option (List Char)) (repl : List Char) :
    Nat → List Char → List Char
  | 0, s => s
  | _ + 1, [] => []
  | fuel + 1, c :: rest =>
    match m (c :: rest) with
    | some r => repl ++ replaceAllAux m repl fuel r
    | none => c :: replaceAllAux m repl fuel rest

/-- Replace every occurrence found by the matcher, scanning once from the
left as Regex::replace_all does. -/
def replaceAll (m : List Char → Option (List Char)) (repl : List Char)
    (s : List Char) : List Char :=
  replaceAllAux m repl s.length s

/-- The three regex passes of rewrite_request applied to the query text:
strip block arguments, collapse an opening parenthesis followed by a
comma, drop empty argument lists. -/
def rewriteQuery (s : String) : String :=
  let a := replaceAll matchBlockAt [] s.toList
  let b := replaceAll matchParenCommaAt ['('] a
  let c := replaceAll matchEmptyParensAt [] b
  String.mk c

/-- The as_str view of a JSON value: the string it holds, when it is a
string. -/
def asStr : Json → Option String
  | .str s => some s
  | _ => none

/-- Action of rewrite_request on one object field: the field named query
holding a string gets the cleaned query text, every other field is kept
as it is. -/
def rewriteField (kv : String × Json) : String × Json :=
  if kv.1 = "query" then
    match kv.2 with
    | .str s => (kv.1, Json.str (rewriteQuery s))
    | v => (kv.1, v)
  else kv

/-- rewrite_request from service.rs: if the value is an object with a
string field query, replace that field by the cleaned query text; in
every other case the value is returned unchanged. -/
def rewrite_request (value : Json) : Json :=
  match value with
  | .obj fields => .obj (fields.map rewriteField)
  | v => v

/-! ### Forwarding adapter (service.rs, process_request) -/

/-- Typed errors of the service (error.rs). The opaque diagnostic
payloads (anyhow errors, the deployment id, the reqwest error) carry no
information the claims depend on and are dropped. -/
inductive GeoServiceError where
  | invalidStatusQuery
  | unsupportedStatusQueryFields (fields : List String)
  | statusQueryError
  | invalidDeployment
  | queryForwardingError
deriving Repr

/-- Response produced by process_request: the raw backend body and the
attestability flag (struct GeoServiceResponse in service.rs). -/
structure GeoServiceResponse where
  inner : String
  attestable : Bool
deriving Repr

/-- Attestability classification of process_request: the value of the
graph-attestable header, where none models an absent header, some none a
present header whose bytes cannot be converted to a string, and
some (some v) a present header converted to the string v. The code is
headers.get, then map_or true of to_str, map equality with the literal
true, unwrap_or true. -/
def is_attestable (header : Option (Option String)) : Bool :=
  match header with
  | none => true
  | some none => true
  | some (some v) => v = "true"

/-- Outcome of the backend HTTP POST of process_request: a transport
error from send, or a response carrying the graph-attestable header and
the body text (none when reading the body text fails). -/
inductive SendOutcome where
  | sendErr
  | response (attestableHeader : Option (Option String)) (body : Option String)

/-- process_request from service.rs. urlOk models whether the backend
URL parses; the backend oracle maps the forwarded JSON body to the HTTP
outcome and is applied to the rewritten request, while the request
returned on success is the original one. -/
def process_request (urlOk : Bool) (backend : Json → SendOutcome)
    (request : Json) : Except GeoServiceError (Json × GeoServiceResponse) :=
  if urlOk then
    match backend (rewrite_request request) with
    | .sendErr => .error .queryForwardingError
    | .response hdr body =>
      let attestable := is_attestable hdr
      match body with
      | none => .error .queryForwardingError
      | some b => .ok (request, ⟨b, attestable⟩)
  else .error .invalidDeployment

/-! ### Status route (routes/status.rs) -/

/-- A selection inside a GraphQL selection set: a plain field with its
name and nested selection set, an inline fragment, or a fragment spread
(the latter two carry nothing the status route reads). -/
inductive Selection where
  | field (name : String) (selectionSet : List Selection)
  | inlineFragment
  | fragmentSpread

/-- A definition of a parsed GraphQL document: an operation (query,
mutation, subscription, or a bare selection set) or a fragment
definition; only the selection sets read by the status route are kept. -/
inductive Definition where
  | queryOp (selectionSet : List Selection)
  | bareSelectionSet (selectionSet : List Selection)
  | mutationOp
  | subscriptionOp
  | fragment (selectionSet : List Selection)

/-- A parsed GraphQL document: its list of definitions. -/
structure Document where
  definitions : List Definition

/-- Root selection sets of the status route: selection sets of query
operations and bare selection sets, and selection sets of fragment
definitions; mutations and subscriptions are skipped. -/
def rootSelectionSets (doc : Document) : List (List Selection) :=
  doc.definitions.filterMap (fun d =>
    match d with
    | .queryOp ss => some ss
    | .bareSelectionSet ss => some ss
    | .fragment ss => some ss
    | _ => none)

/-- Names of the plain fields of one selection set, collected into a
hash set in the code: inline fragments and fragment spreads are ignored
and duplicates within the one set collapse. -/
def selectionFieldNames (ss : List Selection) : List String :=
  (ss.filterMap (fun s =>
    match s with
    | .field name _ => some name
    | _ => none)).dedup

/-- Root field names of the status route: the per-set collections,
concatenated across all root selection sets by flat_map (the hash set is
built per selection set, so nothing collapses duplicates across sets). -/
def rootFields (doc : Document) : List String :=
  (rootSelectionSets doc).flatMap selectionFieldNames

/-- The fixed whitelist SUPPORTED_ROOT_FIELDS of routes/status.rs. -/
def SUPPORTED_ROOT_FIELDS : List String :=
  ["indexingStatuses", "chains", "latestBlock", "earliestBlock",
   "publicProofsOfIndexing", "entityChangesInBlock", "blockData",
   "cachedEthereumCalls", "subgraphFeatures", "apiVersions"]

/-- Root fields of the document that are not in the whitelist, in
extraction order. -/
def unsupportedRootFields (doc : Document) : List String :=
  (rootFields doc).filter (fun f => !(SUPPORTED_ROOT_FIELDS.contains f))

/-- Replacement applied at one object after its values were recursed
into: the entry at the key subgraph, when its value is the string old,
gets the string new (serde_json compares a value with a string as: the
value is a string and the strings are equal). -/
def applySubgraph (old new : String) (fields : List (String × Json)) :
    List (String × Json) :=
  fields.map (fun kv =>
    match kv with
    | (k, Json.str s) =>
      if k = "subgraph" ∧ s = old then (k, Json.str new) else (k, Json.str s)
    | kv => kv)

mutual

/-- replace_subgraph_id from routes/status.rs: objects first recurse
into every value and then replace the value at the key subgraph when it
equals the string old, arrays recurse into every element, scalars are
unchanged. -/
def replace_subgraph_id (old new : String) : Json → Json
  | .obj fields => .obj (applySubgraph old new (replaceFields old new fields))
  | .arr items => .arr (replaceItems old new items)
  | v => v

/-- Recursion of replace_subgraph_id into the values of an object. -/
def replaceFields (old new : String) : List (String × Json) → List (String × Json)
  | [] => []
  | (k, v) :: rest => (k, replace_subgraph_id old new v) :: replaceFields old new rest

/-- Recursion of replace_subgraph_id into the elements of an array. -/
def replaceItems (old new : String) : List Json → List Json
  | [] => []
  | v :: rest => replace_subgraph_id old new v :: replaceItems old new rest

end

/-- The client-facing identifier substituted for the backend sentinel in
status responses. -/
def geoNewId : String := "QmVfNm8Jok8fFtspmFYYGTo5Sp7BvP3nYr6UHvDrLe6ewp"

/-- The reserved version query literal of the status route. -/
def versionQueryLiteral : String := "\x7b version \x7b version \x7d \x7d"

/-- Outcome of the backend status call send_graphql: a transport or HTTP
failure, a successful JSON payload, a GraphQL error list, or a response
with neither data nor errors. -/
inductive BackendStatusResult where
  | transportErr
  | ok (value : Json)
  | failure (errors : List Json)
  | empty

/-- The status route handler of routes/status.rs over a parse oracle for
the external GraphQL parser and the backend outcome. The version literal
short-circuits to the empty success payload; a parse failure is the
invalid status query error; a non-empty unsupported root field list is
the unsupported fields error; otherwise the backend outcome is wrapped:
data gets the subgraph substitution, a GraphQL error list passes through
under errors, a transport failure is the status query error, and the
empty outcome hits a todo panic in the code, modelled as none. -/
def status (parse : String → Option Document) (backend : BackendStatusResult)
    (query : String) : Option (Except GeoServiceError Json) :=
  if query = versionQueryLiteral then
    some (.ok (Json.obj [("data", Json.obj []), ("errors", Json.null)]))
  else
    match parse query with
    | none => some (.error .invalidStatusQuery)
    | some doc =>
      let unsupported := unsupportedRootFields doc
      if unsupported.isEmpty then
        match backend with
        | .transportErr => some (.error .statusQueryError)
        | .ok v =>
          some (.ok (Json.obj [("data", replace_subgraph_id "geo" geoNewId v)]))
        | .failure errors => some (.ok (Json.obj [("errors", Json.arr errors)]))
        | .empty => none
      else some (.error (.unsupportedStatusQueryFields unsupported))

/-! ### Spec-side definition for the identifier rewriter

The claim about replace_subgraph_id is a refinement statement; the
following definitions restate the specification's words — every key
literally named subgraph whose value equals the string old gets the
value new, at any nesting depth, under objects and arrays uniformly,
and every other node is unchanged — to be compared with the definition
taken from the source. -/

mutual

/-- Specification-side substitution on a JSON value. -/
def substSpec (old new : String) : Json → Json
  | .obj fields => .obj (substSpecFields old new fields)
  | .arr items => .arr (substSpecItems old new items)
  | v => v

/-- Specification-side substitution on object fields: a field named
subgraph whose value is the string old becomes the string new, every
other field keeps its key and has its value substituted recursively. -/
def substSpecFields (old new : String) : List (String × Json) → List (String × Json)
  | [] => []
  | (k, Json.str s) :: rest =>
    (if k = "subgraph" ∧ s = old then (k, Json.str new) else (k, Json.str s)) ::
      substSpecFields old new rest
  | (k, v) :: rest => (k, substSpec old new v) :: substSpecFields old new rest

/-- Specification-side substitution on array elements. -/
def substSpecItems (old new : String) : List Json → List Json
  | [] => []
  | v :: rest => substSpec old new v :: substSpecItems old new rest

end

/-! ### Concrete documents and parse oracles used by the theorems -/

/-- Parsed form of the query selecting indexingStatuses with a nested
subgraph field. -/
def statusDocOk : Document :=
  ⟨[.bareSelectionSet [.field "indexingStatuses" [.field "subgraph" []]]]⟩

/-- Parsed form of the query selecting the single root field
unknownField. -/
def statusDocUnknown : Document :=
  ⟨[.bareSelectionSet [.field "unknownField" []]]⟩

/-- Parsed form of a query mixing one allowed and one disallowed root
field. -/
def statusDocMixed : Document :=
  ⟨[.bareSelectionSet [.field "indexingStatuses" [], .field "unknownField" []]]⟩

/-- Parsed form of the query selecting the allowed root field chains. -/
def statusDocChains : Document :=
  ⟨[.bareSelectionSet [.field "chains" []]]⟩

/-- Parsed form of a document whose bare selection set and fragment
definition both select unknownField: two root selection sets sharing a
field name. -/
def statusDocDupAcross : Document :=
  ⟨[.bareSelectionSet [.field "unknownField" []],
    .fragment [.field "unknownField" []]]⟩

/-- Parse oracle recognising the chains query. -/
def parseChainsOracle : String → Option Document :=
  fun s => if s = "\x7b chains \x7d" then some statusDocChains else none

/-- Parse oracle recognising the unknownField query. -/
def parseUnknownOracle : String → Option Document :=
  fun s => if s = "\x7b unknownField \x7d" then some statusDocUnknown else none

/-! ## Theorems -/

mutual

/-- Helper for the identifier rewriter claim: the source definition and
the specification-side definition agree on every value. -/
theorem replaceVal_eq_spec (old new : String) : (v : Json) →
    replace_subgraph_id old new v = substSpec old new v
  | .null => rfl
  | .bool _ => rfl
  | .num _ => rfl
  | .str _ => rfl
  | .arr items => congrArg Json.arr (replaceItems_eq_spec old new items)
  | .obj fields => congrArg Json.obj (replaceFields_eq_spec old new fields)

/-- Helper: agreement on object field lists, with the source side
recursing first and replacing afterwards. -/
theorem replaceFields_eq_spec (old new : String) :
    (fields : List (String × Json)) →
    applySubgraph old new (replaceFields old new fields) =
      substSpecFields old new fields
  | [] => rfl
  | (k, Json.null) :: rest => by
    show (k, Json.null) :: applySubgraph old new (replaceFields old new rest) =
      (k, Json.null) :: substSpecFields old new rest
    exact congrArg _ (replaceFields_eq_spec old new rest)
  | (k, Json.bool b) :: rest => by
    show (k, Json.bool b) :: applySubgraph old new (replaceFields old new rest) =
      (k, Json.bool b) :: substSpecFields old new rest
    exact congrArg _ (replaceFields_eq_spec old new rest)
  | (k, Json.num n) :: rest => by
    show (k, Json.num n) :: applySubgraph old new (replaceFields old new rest) =
      (k, Json.num n) :: substSpecFields old new rest
    exact congrArg _ (replaceFields_eq_spec old new rest)
  | (k, Json.str s) :: rest => by
    show (if k = "subgraph" ∧ s = old then (k, Json.str new) else (k, Json.str s)) ::
        applySubgraph old new (replaceFields old new rest) =
      (if k = "subgraph" ∧ s = old then (k, Json.str new) else (k, Json.str s)) ::
        substSpecFields old new rest
    exact congrArg _ (replaceFields_eq_spec old new rest)
  | (k, Json.arr items) :: rest => by
    show (k, Json.arr (replaceItems old new items)) ::
        applySubgraph old new (replaceFields old new rest) =
      (k, Json.arr (substSpecItems old new items)) :: substSpecFields old new rest
    rw [replaceItems_eq_spec old new items, replaceFields_eq_spec old new rest]
  | (k, Json.obj fs) :: rest => by
    show (k, Json.obj (applySubgraph old new (replaceFields old new fs))) ::
        applySubgraph old new (replaceFields old new rest) =
      (k, Json.obj (substSpecFields old new fs)) :: substSpecFields old new rest
    rw [replaceFields_eq_spec old new fs, replaceFields_eq_spec old new rest]

/-- Helper: agreement on array element lists. -/
theorem replaceItems_eq_spec (old new : String) : (items : List Json) →
    replaceItems old new items = substSpecItems old new items
  | [] => rfl
  | v :: rest => by
    show replace_subgraph_id old new v :: replaceItems old new rest =
      substSpec old new v :: substSpecItems old new rest
    rw [replaceVal_eq_spec old new v, replaceItems_eq_spec old new rest]

end

/-- Claim C6: replace_subgraph_id substitutes the string new for every
value equal to the string old sitting under a key literally named
subgraph, at any nesting depth and uniformly under objects and arrays,
and leaves every other node of the tree unchanged — it coincides with
the specification-side substitution substSpec. -/
theorem replace_subgraph_id_correct (old new : String) (v : Json) :
    replace_subgraph_id old new v = substSpec old new v :=
  replaceVal_eq_spec old new v

/-- Claim C1 (refuted, code bug): the query rewriter is not idempotent.
Rewriting the query foo(()) yields foo() because the scan of the third
regex resumes after each replaced span and never rescans, and rewriting
the already-rewritten query foo() yields foo — a second application is
not a no-op, although the specification requires idempotence. -/
theorem rewrite_request_not_idempotent :
    rewrite_request (Json.obj [("query", Json.str "foo(())")]) =
      Json.obj [("query", Json.str "foo()")] ∧
    rewrite_request (Json.obj [("query", Json.str "foo()")]) =
      Json.obj [("query", Json.str "foo")] ∧
    rewriteQuery "foo(())" = "foo()" ∧
    rewriteQuery (rewriteQuery "foo(())") ≠ rewriteQuery "foo(())" :=
  ⟨rfl, rfl, rfl, by decide⟩

/-- Claim C2 counterexample: a present, decodable graph-attestable
header whose value is neither the literal true nor the literal false
classifies as not attestable, while the claim says such a value yields
the default true. -/
theorem is_attestable_nonbool_value_false :
    is_attestable (some (some "maybe")) = false := rfl

/-- Claim C2 as amended: the classifier returns true exactly when the
header is absent, when its bytes cannot be converted to a string, or
when its value equals the literal true; any other present, decodable
value — the literal false like any arbitrary string — returns false. -/
theorem is_attestable_characterization (h : Option (Option String)) :
    is_attestable h = true ↔
      (h = none ∨ h = some none ∨ h = some (some "true")) := by
  rcases h with _ | h
  · simp [is_attestable]
  rcases h with _ | v
  · simp [is_attestable]
  simp [is_attestable]

/-- Claim C4 (refuted, code bug): a backend status response that is not
a transport failure but carries neither data nor a GraphQL error list
(the empty outcome of send_graphql) reaches a todo panic in the handler
instead of being surfaced as a typed error; the model returns none for
the panic. -/
theorem status_empty_response_panics :
    status parseChainsOracle BackendStatusResult.empty "\x7b chains \x7d" =
      none := rfl

/-- Claim C5 counterexample: stripping a leading block argument consumes
the trailing comma but not the whitespace after it, so the documented
example produces a leftover space, and the brace matching stops at the
first closing brace, so a nested object literal is not removed entirely
and leaves a stray closing brace behind. -/
theorem rewriteQuery_block_examples_deviate :
    rewriteQuery "foo(block: \x7bnumber: 5\x7d, first: 10)" = "foo( first: 10)" ∧
    ("foo( first: 10)" : String) ≠ "foo(first: 10)" ∧
    rewriteQuery "foo(block: \x7ba: \x7bb: 1\x7d\x7d, first: 10)" =
      "foo(\x7d, first: 10)" :=
  ⟨rfl, by decide, rfl⟩

/-- Claim C5 as amended: the first step removes block arguments whose
value is null or a brace literal containing no inner closing brace (the
match extends only to the first closing brace, so nested object literals
are not removed entirely), together with one adjacent comma and the
whitespace before the argument but not the whitespace after a consumed
trailing comma; consequently foo(block: null) rewrites to foo, a block
argument in trailing position is removed together with the comma and
whitespace before it, a leading block argument leaves the whitespace
that followed its comma, and a lone block argument loses its enclosing
parentheses. -/
theorem rewriteQuery_block_stripping_amended :
    rewriteQuery "foo(block: \x7bnumber: 5\x7d, first: 10)" = "foo( first: 10)" ∧
    rewriteQuery "foo(first: 10, block: null)" = "foo(first: 10)" ∧
    rewriteQuery "foo(block: null)" = "foo" ∧
    rewriteQuery "foo(block: \x7bhash: 1\x7d)" = "foo" ∧
    rewriteQuery "foo(block: \x7ba: \x7bb: 1\x7d\x7d, first: 10)" =
      "foo(\x7d, first: 10)" :=
  ⟨rfl, rfl, rfl, rfl, rfl⟩

/-- Claim C8: the reserved status query literal short-circuits to the
empty success payload for every parse oracle and every backend outcome —
neither the parser nor the backend can influence the result, so no
parsing, validation or backend call takes part in it. -/
theorem status_version_short_circuit
    (parse : String → Option Document) (backend : BackendStatusResult) :
    status parse backend versionQueryLiteral =
      some (.ok (Json.obj [("data", Json.obj []), ("errors", Json.null)])) := by
  simp [status]

/-- Claim C7 counterexample: a document whose bare selection set and
fragment definition both select unknownField yields that name twice in
the extracted root fields — the hash set in the code is built per
selection set, and nothing collapses duplicates across sets. -/
theorem rootFields_duplicate_across_sets :
    rootFields statusDocDupAcross = ["unknownField", "unknownField"] ∧
    ¬ (rootFields statusDocDupAcross).Nodup :=
  ⟨rfl, by decide⟩

/-- Claim C7 as amended: extraction takes as root sets the selection
sets of query operations, bare selection sets and fragment definitions,
collects only plain field names — a name is in the extraction exactly
when some root set holds a plain field of that name — and is
duplicate-free within the contribution of each single root set, though a
name occurring in several root sets appears once per such set. -/
theorem rootFields_membership (doc : Document) (f : String) :
    (f ∈ rootFields doc ↔
      ∃ ss, ss ∈ rootSelectionSets doc ∧ ∃ sub, Selection.field f sub ∈ ss) ∧
    (∀ ss, ss ∈ rootSelectionSets doc → (selectionFieldNames ss).Nodup) := by
  constructor
  · rw [rootFields, List.mem_flatMap]
    constructor
    · rintro ⟨ss, hss, hf⟩
      rw [selectionFieldNames, List.mem_dedup, List.mem_filterMap] at hf
      obtain ⟨s, hs, hname⟩ := hf
      cases s with
      | field n sub =>
        refine ⟨ss, hss, sub, ?_⟩
        obtain rfl : n = f := by simpa using hname
        exact hs
      | inlineFragment => simp at hname
      | fragmentSpread => simp at hname
    · rintro ⟨ss, hss, sub, hmem⟩
      refine ⟨ss, hss, ?_⟩
      rw [selectionFieldNames, List.mem_dedup, List.mem_filterMap]
      exact ⟨.field f sub, hmem, rfl⟩
  · intro ss _
    exact List.nodup_dedup _

/-- Witness for the amended root-field extraction claim at the document
selecting indexingStatuses. -/
theorem rootFields_membership_witness :
    (selectionFieldNames
      [Selection.field "indexingStatuses" [Selection.field "subgraph" []]]).Nodup :=
  (rootFields_membership statusDocOk "indexingStatuses").2
    [Selection.field "indexingStatuses" [Selection.field "subgraph" []]]
    (List.mem_singleton.mpr rfl)

/-- Helper: the root fields outside the whitelist are empty exactly when
every root field is whitelisted. -/
theorem unsupported_empty_iff (doc : Document) :
    unsupportedRootFields doc = [] ↔
      ∀ f ∈ rootFields doc, f ∈ SUPPORTED_ROOT_FIELDS := by
  rw [unsupportedRootFields, List.filter_eq_nil_iff]
  constructor
  · intro h f hf
    have := h f hf
    simpa using this
  · intro h f hf
    simpa using h f hf

/-- Helper: membership in the unsupported root field list. -/
theorem mem_unsupported_iff (doc : Document) (f : String) :
    f ∈ unsupportedRootFields doc ↔
      f ∈ rootFields doc ∧ ¬ f ∈ SUPPORTED_ROOT_FIELDS := by
  rw [unsupportedRootFields, List.mem_filter]
  simp

/-- Claim C3: for a parseable status query the handler fails with the
unsupported-fields error exactly when some extracted root field is
outside the whitelist, the error lists every non-whitelisted root field,
and on the three documented examples the unsupported lists are empty,
exactly the unknown field, and only the disallowed one of a mixed
query. -/
theorem status_whitelist_correct :
    (∀ (parse : String → Option Document) (backend : BackendStatusResult)
        (q : String) (doc : Document),
        parse q = some doc → q ≠ versionQueryLiteral →
        (status parse backend q =
            some (Except.error (GeoServiceError.unsupportedStatusQueryFields
              (unsupportedRootFields doc))) ↔
          ∃ f, f ∈ rootFields doc ∧ ¬ f ∈ SUPPORTED_ROOT_FIELDS)) ∧
    (∀ (doc : Document) (f : String),
        f ∈ rootFields doc → ¬ f ∈ SUPPORTED_ROOT_FIELDS →
        f ∈ unsupportedRootFields doc) ∧
    unsupportedRootFields statusDocOk = [] ∧
    unsupportedRootFields statusDocUnknown = ["unknownField"] ∧
    unsupportedRootFields statusDocMixed = ["unknownField"] := by
  refine ⟨?_, ?_, rfl, rfl, rfl⟩
  · intro parse backend q doc hp hq
    by_cases hemp : unsupportedRootFields doc = []
    · have hall : ∀ f ∈ rootFields doc, f ∈ SUPPORTED_ROOT_FIELDS :=
        (unsupported_empty_iff doc).1 hemp
      have hno : ¬ ∃ f, f ∈ rootFields doc ∧ ¬ f ∈ SUPPORTED_ROOT_FIELDS := by
        rintro ⟨f, hf, hnf⟩
        exact hnf (hall f hf)
      simp only [status, if_neg hq, hp]
      rw [hemp]
      cases backend <;> simp [hno]
    · have hex : ∃ f, f ∈ rootFields doc ∧ ¬ f ∈ SUPPORTED_ROOT_FIELDS := by
        obtain ⟨f, hf⟩ := List.exists_mem_of_ne_nil _ hemp
        exact ⟨f, (mem_unsupported_iff doc f).1 hf⟩
      have hne : (unsupportedRootFields doc).isEmpty = false := by
        simpa [List.isEmpty_iff] using hemp
      simp only [status, if_neg hq, hp, hne]
      simp [hex]
  · intro doc f hf hnf
    exact (mem_unsupported_iff doc f).2 ⟨hf, hnf⟩

/-- Witness for the whitelist validation claim at the unknownField
query. -/
theorem status_whitelist_correct_witness :
    status parseUnknownOracle BackendStatusResult.transportErr
        "\x7b unknownField \x7d" =
      some (Except.error (GeoServiceError.unsupportedStatusQueryFields
        (unsupportedRootFields statusDocUnknown))) ↔
      ∃ f, f ∈ rootFields statusDocUnknown ∧ ¬ f ∈ SUPPORTED_ROOT_FIELDS :=
  status_whitelist_correct.1 parseUnknownOracle BackendStatusResult.transportErr
    "\x7b unknownField \x7d" statusDocUnknown rfl (by decide)

/-- Helper: rewriteField keeps the key of a field. -/
theorem rewriteField_fst (kv : String × Json) : (rewriteField kv).1 = kv.1 := by
  rcases kv with ⟨k, v⟩
  by_cases h : k = "query" <;> cases v <;> simp [rewriteField, h]

/-- Helper: rewriteField leaves a field not named query unchanged. -/
theorem rewriteField_of_ne (kv : String × Json) (h : ¬ kv.1 = "query") :
    rewriteField kv = kv := by
  simp [rewriteField, h]

/-- Helper: rewriteField leaves a field whose value is not a string
unchanged. -/
theorem rewriteField_of_not_str (kv : String × Json) (h : asStr kv.2 = none) :
    rewriteField kv = kv := by
  rcases kv with ⟨k, v⟩
  by_cases hq : k = "query"
  · cases v with
    | str s => simp [asStr] at h
    | null => simp [rewriteField, hq]
    | bool b => simp [rewriteField, hq]
    | num n => simp [rewriteField, hq]
    | arr items => simp [rewriteField, hq]
    | obj fields => simp [rewriteField, hq]
  · exact rewriteField_of_ne (k, v) hq

/-- Claim C9 counterexample: a request whose query string contains no
block argument is still modified, because the third rewrite collapses
empty argument lists — so the absence of block arguments is not a
no-op. -/
theorem rewrite_request_changes_without_block :
    rewrite_request (Json.obj [("query", Json.str "foo()")]) =
      Json.obj [("query", Json.str "foo")] ∧
    Json.obj [("query", Json.str "foo()")] ≠ Json.obj [("query", Json.str "foo")] :=
  ⟨rfl, by simp⟩

/-- Claim C9 as amended: rewrite_request never fails and modifies only
the query field — a non-object value is returned unchanged, keys and
their order are preserved, every field other than query passes through
unchanged, and an object whose query field is absent or not a string is
returned unchanged; a string query, however, may change even without
block arguments, since empty argument lists and openings of a
parenthesis followed by a comma are collapsed as well. -/
theorem rewrite_request_frame (v : Json) (fields : List (String × Json)) :
    ((∀ fs, v ≠ Json.obj fs) → rewrite_request v = v) ∧
    (∃ fields2, rewrite_request (Json.obj fields) = Json.obj fields2 ∧
      fields2.map Prod.fst = fields.map Prod.fst ∧
      fields2.filter (fun kv => !(kv.1 == "query")) =
        fields.filter (fun kv => !(kv.1 == "query"))) ∧
    ((∀ kv ∈ fields, kv.1 = "query" → asStr kv.2 = none) →
      rewrite_request (Json.obj fields) = Json.obj fields) := by
  refine ⟨?_, ⟨fields.map rewriteField, rfl, ?_, ?_⟩, ?_⟩
  · intro h
    cases v with
    | obj fs => exact absurd rfl (h fs)
    | null => rfl
    | bool b => rfl
    | num n => rfl
    | str s => rfl
    | arr items => rfl
  · rw [List.map_map]
    exact List.map_congr_left (fun kv _ => rewriteField_fst kv)
  · induction fields with
    | nil => rfl
    | cons kv rest ih =>
      by_cases h : kv.1 = "query"
      · have h1 : ((rewriteField kv).1 == "query") = true := by
          rw [rewriteField_fst]
          exact beq_iff_eq.mpr h
        have h2 : (kv.1 == "query") = true := beq_iff_eq.mpr h
        simp [List.filter_cons, h1, h2, ih]
      · have h1 : ((rewriteField kv).1 == "query") = false := by
          rw [rewriteField_fst]
          exact beq_eq_false_iff_ne.mpr h
        have h2 : (kv.1 == "query") = false := beq_eq_false_iff_ne.mpr h
        simp [List.filter_cons, h1, h2, rewriteField_of_ne kv h, ih]
  · intro h
    show Json.obj (fields.map rewriteField) = Json.obj fields
    congr 1
    induction fields with
    | nil => rfl
    | cons kv rest ih =>
      rw [List.map_cons]
      have hkv : rewriteField kv = kv := by
        by_cases hq : kv.1 = "query"
        · exact rewriteField_of_not_str kv (h kv (List.mem_cons_self kv rest) hq)
        · exact rewriteField_of_ne kv hq
      rw [hkv, ih (fun kv2 hkv2 => h kv2 (List.mem_cons_of_mem kv hkv2))]

/-- Witness for the frame claim of rewrite_request: a non-object request
and an object with no string query both pass through unchanged. -/
theorem rewrite_request_frame_witness :
    rewrite_request Json.null = Json.null ∧
    rewrite_request
        (Json.obj [("operationName", Json.null), ("query", Json.num 5)]) =
      Json.obj [("operationName", Json.null), ("query", Json.num 5)] :=
  ⟨(rewrite_request_frame Json.null []).1 (fun fs h => Json.noConfusion h),
   (rewrite_request_frame Json.null
      [("operationName", Json.null), ("query", Json.num 5)]).2.2 (by decide)⟩

/-- Claim C10: whenever process_request succeeds, the first component of
the returned pair is the original incoming request — the rewriting feeds
only the body handed to the backend, never the request handed back. -/
theorem process_request_returns_original (urlOk : Bool)
    (backend : Json → SendOutcome) (request : Json)
    (pr : Json × GeoServiceResponse)
    (h : process_request urlOk backend request = Except.ok pr) :
    pr.1 = request := by
  unfold process_request at h
  by_cases hu : urlOk
  · rw [if_pos hu] at h
    cases hb : backend (rewrite_request request) with
    | sendErr => rw [hb] at h; exact absurd h (by simp)
    | response hdr body =>
      rw [hb] at h
      cases body with
      | none => simp at h
      | some b =>
        simp only [Except.ok.injEq] at h
        rw [← h]
  · rw [if_neg hu] at h
    exact absurd h (by simp)

/-- Witness for the returned-request claim at a concrete request and
backend. -/
theorem process_request_returns_original_witness :
    (Json.num 1, GeoServiceResponse.mk "ok" true).1 = Json.num 1 :=
  process_request_returns_original true
    (fun _ => SendOutcome.response none (some "ok")) (Json.num 1)
    (Json.num 1, GeoServiceResponse.mk "ok" true) rfl

end Geo
